import Mathlib

/-!
# Verification of the SEO auto-tagger core (`ai_seo_auto_tagger.py`)

Shallow embedding of the rule-based analyzer (`rule_based_analysis`) and the
metadata assembler (`generate_seo_metadata`) of `AISeOAutoTagger`.

Modelling conventions:
* Python strings are `List Char`; the embedding models Python's character
  classes (`\w`, `\s`, `[a-z]`, `str.lower`, `str.capitalize`, `str.strip`)
  by their ASCII restrictions, which is exact on ASCII text.
* The external Gemini collaborator (`ai_analyze_content`) is an opaque input:
  its outcome is passed in as `Option BaseMetadata` (`none` models both an
  exception inside `ai_analyze_content` — which the `except` clause turns
  into `None` — and a falsy parse result).
* `datetime.now().strftime('%Y-%m-%d')` is nondeterministic; the current date
  is passed in as the explicit argument `today`.
* Python dicts with possibly-missing keys (`base_metadata.get(k, d)`) are
  modelled as a structure of `Option` fields read with `Option.getD`.
* Python's `round` (used on `word_count / 200`) rounds half to even
  (banker's rounding); it is modelled exactly on the rational `wc / 200`.
-/

/-- A Python string, modelled as its list of characters. -/
abbrev Str := List Char

/-! ## Character classes (ASCII restrictions of Python's classes) -/

/-- ASCII uppercase letter (`A`–`Z`), computed on the code point. -/
def pyIsUpper (c : Char) : Bool := 65 ≤ c.toNat && c.toNat ≤ 90

/-- ASCII lowercase letter (`a`–`z`), the character class `[a-z]` of the
keyword regex at line 126. -/
def pyIsLower (c : Char) : Bool := 97 ≤ c.toNat && c.toNat ≤ 122

/-- ASCII digit `0`–`9`. -/
def pyIsDigit (c : Char) : Bool := 48 ≤ c.toNat && c.toNat ≤ 57

/-- Python's `\w` (ASCII restriction): letter, digit or underscore. -/
def pyIsWordChar (c : Char) : Bool := pyIsUpper c || pyIsLower c || pyIsDigit c || c = '_'

/-- Python's `\s` (ASCII restriction): space, `\t`, `\n`, `\r`, `\x0b`, `\x0c`.
Also the separator class of `str.split()` / `str.strip()` on ASCII text. -/
def pyIsSpace (c : Char) : Bool :=
  c = ' ' || c = '\t' || c = '\n' || c = '\r' || c = '\x0b' || c = '\x0c'

/-- ASCII `str.lower` on one character: shift `A`–`Z` down by 32, fix the rest. -/
def pyLower (c : Char) : Char :=
  if pyIsUpper c then Char.ofNat (c.toNat + 32) else c

/-- ASCII `str.upper` on one character (used by `str.capitalize`). -/
def pyUpper (c : Char) : Char :=
  if pyIsLower c then Char.ofNat (c.toNat - 32) else c

/-- `str.lower` on a whole string. -/
def pyLowerStr (s : Str) : Str := s.map pyLower

/-! ## Generic string helpers -/

/-- `str.strip()`: remove leading and trailing whitespace. -/
def pyStrip (s : Str) : Str :=
  (((s.dropWhile pyIsSpace).reverse.dropWhile pyIsSpace)).reverse

/-- `str.strip('-')`: remove leading and trailing hyphens (line 199). -/
def stripDashes (s : Str) : Str :=
  (((s.dropWhile (· = '-')).reverse.dropWhile (· = '-'))).reverse

/-- Accumulator pass of `splitOnNl` (`cur` holds the current field reversed). -/
def splitOnNlAux (cur : Str) : Str → List Str
  | [] => [cur.reverse]
  | c :: cs => if c = '\n' then cur.reverse :: splitOnNlAux [] cs else splitOnNlAux (c :: cur) cs

/-- `str.split('\n')`: split on every newline; always returns at least one
(possibly empty) field, like Python. -/
def splitOnNl (s : Str) : List Str := splitOnNlAux [] s

/-- Accumulator pass of `wsTokens`: `cur` is the current token reversed. -/
def wsTokensAux (cur : Str) : Str → List Str
  | [] => if cur = [] then [] else [cur.reverse]
  | c :: cs =>
    if pyIsSpace c then
      (if cur = [] then wsTokensAux [] cs else cur.reverse :: wsTokensAux [] cs)
    else wsTokensAux (c :: cur) cs

/-- `str.split()` with no argument: whitespace-separated tokens, empty tokens
dropped (the `blog_text.split()` of line 193). -/
def wsTokens (s : Str) : List Str := wsTokensAux [] s

/-- Python's `round` on the exact rational `n / d` (`d > 0`): round half to
even, as `round(word_count / 200)` does at line 194. -/
def pyRoundDiv (n d : Nat) : Nat :=
  let q := n / d
  let r := n % d
  if 2 * r < d then q
  else if d < 2 * r then q + 1
  else if q % 2 = 0 then q else q + 1

/-- Decimal rendering of a natural number, as Python's `f"{n}"`. -/
def natToChars (n : Nat) : Str := Nat.toDigits 10 n

/-! ## Slug pipeline (lines 197–199)

`slug = re.sub(r'[^\w\s-]', '', slug_title.lower())`
`slug = re.sub(r'[-\s]+', '-', slug).strip('-')[:60]`
-/

/-- Character kept by `re.sub(r'[^\w\s-]', '', ·)`: word char, whitespace or hyphen. -/
def keepSlugChar (c : Char) : Bool := pyIsWordChar c || pyIsSpace c || c = '-'

/-- Character matched by the run class `[-\s]` of line 199. -/
def isDashOrSpace (c : Char) : Bool := c = '-' || pyIsSpace c

/-- `re.sub(r'[-\s]+', '-', ·)`: replace each maximal run of hyphens/whitespace
by a single hyphen. `inRun` records whether the previous character belonged to
such a run (so the run's replacement hyphen has already been emitted). -/
def collapseAux (inRun : Bool) : Str → Str
  | [] => []
  | c :: cs =>
    if isDashOrSpace c then
      if inRun then collapseAux true cs else '-' :: collapseAux true cs
    else c :: collapseAux false cs

/-- `re.sub(r'[-\s]+', '-', ·)` on a whole string. -/
def collapseDashRuns (s : Str) : Str := collapseAux false s

/-- The slug computation of lines 197–199 applied to a title string. -/
def pySlug (title : Str) : Str :=
  (stripDashes (collapseDashRuns ((pyLowerStr title).filter keepSlugChar))).take 60

/-! ## Keyword extraction (line 126): `re.findall(r'\b[a-z]{3,}\b', text)`

A match of `\b[a-z]{3,}\b` is exactly a maximal run of lowercase letters of
length ≥ 3 that is neither preceded nor followed by a word character: the run
boundary against another word character (digit, underscore) makes `\b` fail,
and backtracking inside the run cannot restore a boundary because every
character of the run is itself a word character. The scanner below walks the
string once; `bok` says whether the position before the current run was a word
boundary, `cur` is the current lowercase run (reversed). -/
def findWordsAux (bok : Bool) (cur : Str) : Str → List Str
  | [] => if bok && decide (3 ≤ cur.length) then [cur.reverse] else []
  | c :: cs =>
    if pyIsLower c then findWordsAux bok (c :: cur) cs
    else
      let rest := findWordsAux (!pyIsWordChar c) [] cs
      if bok && decide (3 ≤ cur.length) && !pyIsWordChar c then cur.reverse :: rest
      else rest

/-- All matches of `\b[a-z]{3,}\b` in order. -/
def findWords (s : Str) : List Str := findWordsAux true [] s

/-! ## Frequency table and stable descending sort (lines 127–135)

Python dicts iterate in insertion (first-seen) order and `sorted` is stable,
so `sorted(word_freq.items(), key=lambda x: x[1], reverse=True)` is the
first-seen-ordered association list sorted by descending count with ties kept
in first-seen order. -/

/-- The stop-word set of line 127. -/
def stopWords : List Str :=
  ["the".data, "and".data, "for".data, "with".data, "this".data,
   "that".data, "from".data, "have".data, "will".data]

/-- Add one occurrence of `w` to the association list, appending a new entry
(count 1) if `w` is unseen — preserves first-seen order like a Python dict. -/
def bumpFreq (w : Str) : List (Str × Nat) → List (Str × Nat)
  | [] => [(w, 1)]
  | (x, n) :: rest => if x = w then (x, n + 1) :: rest else (x, n) :: bumpFreq w rest

/-- The `word_freq` dict of lines 129–132 as an association list in
first-insertion order. -/
def buildFreq (ws : List Str) : List (Str × Nat) :=
  ws.foldl (fun acc w => bumpFreq w acc) []

/-- Insert one entry into a list already sorted by descending count, after all
entries of count ≥ its own (stability: later entries go after equal counts). -/
def insertDesc (p : Str × Nat) : List (Str × Nat) → List (Str × Nat)
  | [] => [p]
  | q :: rest => if p.2 ≤ q.2 then q :: insertDesc p rest else p :: q :: rest

/-- Stable sort by descending count (`sorted(..., key=count, reverse=True)`). -/
def sortDescByCount (l : List (Str × Nat)) : List (Str × Nat) :=
  l.foldl (fun acc p => insertDesc p acc) []

/-- `str.capitalize()` (ASCII): first character uppercased, the rest lowercased. -/
def pyCapitalize : Str → Str
  | [] => []
  | c :: cs => pyUpper c :: cs.map pyLower

/-! ## Meta-description pipeline (lines 138–140) -/

/-- Sentence-splitting punctuation class `[.!?]` of line 138. -/
def isSentencePunct (c : Char) : Bool := c = '.' || c = '!' || c = '?'

/-- `re.sub(r'^#+.*$', '', text, flags=re.MULTILINE)`: blank out every line
starting with `#` (the pattern matches the whole line; the newlines stay). -/
def blankHeadingLines (s : Str) : Str :=
  List.intercalate ['\n']
    ((splitOnNl s).map (fun line => if line.head? = some '#' then [] else line))

/-- Accumulator pass of `splitSentences`: `inRun` marks being inside a
punctuation run (whose split was already emitted), `cur` the current field
reversed. `re.split(r'[.!?]+', ·)` splits at each maximal punctuation run and
keeps empty fields. -/
def splitSentencesAux (inRun : Bool) (cur : Str) : Str → List Str
  | [] => [cur.reverse]
  | c :: cs =>
    if isSentencePunct c then
      if inRun then splitSentencesAux true cur cs
      else cur.reverse :: splitSentencesAux true [] cs
    else splitSentencesAux false (c :: cur) cs

/-- `re.split(r'[.!?]+', ·)` of line 138. -/
def splitSentences (s : Str) : List Str := splitSentencesAux false [] s

/-- `'. '.join(l)`. -/
def joinDotSpace (l : List Str) : Str := List.intercalate ('.' :: ' ' :: []) l

/-! ## Topic extraction (line 143): `re.findall(r'^#{1,3}\s+(.+)$', text, re.MULTILINE)`

Scanner states: `lineStart` (a `^` position), `hashes k` (seen `k` leading
`#`), `ws cnt lastNN` (inside the `\s+` run after 1–3 `#`s; `cnt` characters
consumed, `lastNN` the most recent non-newline whitespace character at run
index ≥ 1 — the character the regex captures by backtracking when the run
reaches end-of-string), `cap acc` (inside the `(.+)` capture, reversed), and
`skip` (line cannot match; wait for the next newline). 4+ leading `#`s can
never match (`#{1,3}` leaves a `#` where `\s` is required), `\s+` may cross
newlines, and the capture runs to the next newline or end of string. -/
inductive TopicSt where
  | lineStart : TopicSt
  | hashes : Nat → TopicSt
  | ws : Nat → Option Char → TopicSt
  | cap : Str → TopicSt
  | skip : TopicSt

/-- One scanner step per character. -/
def topicsStep : TopicSt → Char → TopicSt × Option Str
  | .lineStart, c =>
    if c = '#' then (.hashes 1, none)
    else if c = '\n' then (.lineStart, none)
    else (.skip, none)
  | .hashes k, c =>
    if c = '#' then (if k < 3 then (.hashes (k + 1), none) else (.skip, none))
    else if pyIsSpace c then (.ws 1 none, none)
    else if c = '\n' then (.ws 1 none, none)
    else (.skip, none)
  | .ws cnt lastNN, c =>
    if pyIsSpace c then (.ws (cnt + 1) (if c = '\n' then lastNN else some c), none)
    else (.cap [c], none)
  | .cap acc, c =>
    if c = '\n' then (.lineStart, some acc.reverse)
    else (.cap (c :: acc), none)
  | .skip, c =>
    if c = '\n' then (.lineStart, none) else (.skip, none)

/-- Run the scanner, collecting captures; at end of string a pending capture is
emitted, and a pending `\s+` run emits its last non-newline character (the
backtracked single-character capture) when one exists at run index ≥ 1. -/
def topicsRun (st : TopicSt) : Str → List Str
  | [] =>
    match st with
    | .cap acc => [acc.reverse]
    | .ws _ (some c) => [[c]]
    | _ => []
  | c :: cs =>
    match topicsStep st c with
    | (st2, some t) => t :: topicsRun st2 cs
    | (st2, none) => topicsRun st2 cs

/-- `re.findall(r'^#{1,3}\s+(.+)$', text, re.MULTILINE)`. -/
def findTopics (s : Str) : List Str := topicsRun .lineStart s

/-! ## Data model -/

/-- The base metadata mapping produced by either analysis path. Python dict
keys may be absent (notably everything in an AI-returned dict, and `author` in
the rule-based dict), so every field is an `Option`; `dict.get(k, d)` is
`Option.getD`. -/
structure BaseMetadata where
  focus_keyword : Option Str
  keywords : Option (List Str)
  semantic_keywords : Option (List Str)
  meta_description : Option Str
  meta_title : Option Str
  tags : Option (List Str)
  category : Option Str
  entities : Option (List Str)
  topics : Option (List Str)
  faq_questions : Option (List (Str × Str))
  target_audience : Option Str
  content_intent : Option Str
  readability_level : Option Str
  key_takeaways : Option (List Str)
  author : Option Str
deriving DecidableEq

/-- The `complete_metadata` dict of lines 202–238: every key is always set. -/
structure FinalMetadata where
  title : Str
  meta_title : Str
  meta_description : Str
  author : Str
  date : Str
  category : Str
  slug : Str
  canonical_url : Str
  robots : Str
  focus_keyword : Str
  keywords : List Str
  tags : List Str
  semantic_keywords : List Str
  og_title : Str
  og_description : Str
  og_type : Str
  twitter_card : Str
  schema_type : Str
  reading_time : Str
  word_count : Nat
  faq_schema : List (Str × Str)
  entities : List Str
  topics : List Str
  target_audience : Str
  content_intent : Str
  readability_level : Str
  key_takeaways : List Str
deriving DecidableEq

/-- Python truthiness of an optional string (`if not title:` at line 122,
`if title:` at line 184): `None` and `""` are falsy. -/
def strTruthy : Option Str → Bool
  | none => false
  | some s => !(s = [])

/-- `re.sub(r'^#+\s*', '', s)`: if the string starts with `#`, drop the
leading run of `#`s and the following whitespace run (line 123). -/
def dropHeadingMark (s : Str) : Str :=
  if s.head? = some '#' then (s.dropWhile (· = '#')).dropWhile pyIsSpace else s

/-! ## `rule_based_analysis` (lines 116–160) -/

/-- Shallow embedding of `AISeOAutoTagger.rule_based_analysis`. -/
def rule_based_analysis (blog_text : Str) (title : Option Str) : BaseMetadata :=
  let lines := splitOnNl (pyStrip blog_text)
  let rTitle :=
    if strTruthy title then title.getD []
    else match lines with
      | [] => "Untitled".data
      | l0 :: _ => pyStrip (dropHeadingMark l0)
  let words := findWords (pyLowerStr blog_text)
  let counted := words.filter (fun w => !(stopWords.contains w))
  let top_words := (sortDescByCount (buildFreq counted)).take 10
  let keywords := top_words.map Prod.fst
  let sentences := splitSentences (blankHeadingLines blog_text)
  let clean_sentences := (sentences.map pyStrip).filter (fun s => 20 < s.length)
  let meta_desc := (joinDotSpace (clean_sentences.take 2)).take 155
  let topics := findTopics blog_text
  { focus_keyword := some (keywords.headD "content".data)
    keywords := some (keywords.take 10)
    semantic_keywords := some ((List.range (min 5 (keywords.length - 1))).map
      (fun i => (keywords.getD i []) ++ ' ' :: (keywords.getD (i + 1) [])))
    meta_description := some (if meta_desc = [] then blog_text.take 155 else meta_desc)
    meta_title := some (rTitle.take 60)
    tags := some ((keywords.take 8).map pyCapitalize)
    category := some "General".data
    entities := some []
    topics := some (topics.take 5)
    faq_questions := some []
    target_audience := some "general readers".data
    content_intent := some "informational".data
    readability_level := some "general".data
    key_takeaways := some []
    author := none }

/-! ## `generate_seo_metadata` (lines 162–240) -/

/-- The user-override step of lines 184–189. -/
def applyOverrides (base : BaseMetadata) (title author category : Option Str) : BaseMetadata :=
  let b1 := if strTruthy title then { base with meta_title := some ((title.getD []).take 60) } else base
  let b2 := if strTruthy author then { b1 with author := some (author.getD []) } else b1
  if strTruthy category then { b2 with category := some (category.getD []) } else b2

/-- Shallow embedding of `AISeOAutoTagger.generate_seo_metadata`. `use_ai` is
`self.use_ai`; `ai_result` is the outcome of `self.ai_analyze_content`
(`none` models an exception caught inside it, which returns `None`); `today`
is the current date string. -/
def generate_seo_metadata (use_ai : Bool) (ai_result : Option BaseMetadata)
    (blog_text : Str) (title author category : Option Str) (today : Str) : FinalMetadata :=
  let base0 :=
    if use_ai then
      match ai_result with
      | some m => m
      | none => rule_based_analysis blog_text title
    else rule_based_analysis blog_text title
  let base := applyOverrides base0 title author category
  let word_count := (wsTokens blog_text).length
  let reading_time := max 1 (pyRoundDiv word_count 200)
  let slug := pySlug (base.meta_title.getD "untitled".data)
  { title := base.meta_title.getD "Untitled".data
    meta_title := base.meta_title.getD "Untitled".data
    meta_description := base.meta_description.getD []
    author := base.author.getD "Content Team".data
    date := today
    category := base.category.getD "General".data
    slug := slug
    canonical_url := '/' :: slug
    robots := "index, follow".data
    focus_keyword := base.focus_keyword.getD []
    keywords := base.keywords.getD []
    tags := base.tags.getD []
    semantic_keywords := base.semantic_keywords.getD []
    og_title := base.meta_title.getD []
    og_description := (base.meta_description.getD []).take 200
    og_type := "article".data
    twitter_card := "summary_large_image".data
    schema_type := "BlogPosting".data
    reading_time := natToChars reading_time ++ " min read".data
    word_count := word_count
    faq_schema := base.faq_questions.getD []
    entities := base.entities.getD []
    topics := base.topics.getD []
    target_audience := base.target_audience.getD []
    content_intent := base.content_intent.getD "informational".data
    readability_level := base.readability_level.getD []
    key_takeaways := base.key_takeaways.getD [] }


/-! ## Concrete inputs used in scenario claims -/

/-- The scenario input text of the spec (§8): a markdown heading followed by
one sentence. -/
def demoText : Str :=
  "# Hello World\nThis is a test blog about testing software quality and software quality metrics.".data

/-- An AI-returned base metadata dict containing only `meta_title`, a
61-character title whose 60th character is a hyphen. -/
def aiTitle61 : BaseMetadata :=
  { focus_keyword := none, keywords := none, semantic_keywords := none,
    meta_description := none, meta_title := some (List.replicate 59 'a' ++ ['-', 'b']),
    tags := none, category := none, entities := none, topics := none,
    faq_questions := none, target_audience := none, content_intent := none,
    readability_level := none, key_takeaways := none, author := none }

/-- The title resolution of lines 121–123 stated independently of the line
splitter: strip the text, take the longest newline-free prefix (the first
line), remove a leading `#` run and the whitespace after it, strip again. -/
def firstLineTitle (text : Str) : Str :=
  pyStrip (dropHeadingMark ((pyStrip text).takeWhile (· ≠ '\n')))

/-- No two adjacent characters of the string are both hyphens. -/
def NoAdjDash (s : Str) : Prop := List.Chain' (fun a b => ¬(a = '-' ∧ b = '-')) s

/-! ## Lowering lemmas -/

theorem pyIsUpper_pyLower (c : Char) : pyIsUpper (pyLower c) = false := by
  unfold pyLower
  by_cases h : pyIsUpper c = true
  · rw [if_pos h]
    have hb : 65 ≤ c.toNat ∧ c.toNat ≤ 90 := by
      simpa [pyIsUpper] using h
    obtain ⟨h1, h2⟩ := hb
    generalize c.toNat = k at h1 h2
    interval_cases k <;> decide
  · rw [if_neg h]
    exact Bool.eq_false_iff.mpr h

theorem pyLower_pyLower (c : Char) : pyLower (pyLower c) = pyLower c := by
  unfold pyLower
  by_cases h : pyIsUpper c = true
  · rw [if_pos h]
    have hb : 65 ≤ c.toNat ∧ c.toNat ≤ 90 := by
      simpa [pyIsUpper] using h
    obtain ⟨h1, h2⟩ := hb
    generalize c.toNat = k at h1 h2
    interval_cases k <;> decide
  · rw [if_neg h, if_neg h]

/-! ## Structural lemmas about the slug pipeline -/

/-- Skipping the replacement hyphen makes no difference when the next
character does not belong to a `[-\s]` run. -/
theorem collapseAux_true_eq_false {s : Str}
    (h : ∀ y, s.head? = some y → isDashOrSpace y = false) :
    collapseAux true s = collapseAux false s := by
  cases s with
  | nil => rfl
  | cons c cs =>
    have hc := h c rfl
    simp [collapseAux, hc]

/-- A string with no whitespace-or-hyphen runs of length ≥ 1 other than
isolated hyphens is a fixed point of the run-collapsing substitution. -/
theorem collapseAux_eq_self {s : Str}
    (hchar : ∀ c ∈ s, isDashOrSpace c = true → c = '-')
    (hadj : NoAdjDash s) : collapseAux false s = s := by
  induction s with
  | nil => rfl
  | cons c cs ih =>
    rw [NoAdjDash, List.chain'_cons'] at hadj
    obtain ⟨hhead, htail⟩ := hadj
    have ihcs : collapseAux false cs = cs :=
      ih (fun x hx hds => hchar x (List.mem_cons_of_mem _ hx) hds) htail
    by_cases hds : isDashOrSpace c = true
    · have hcdash : c = '-' := hchar c (List.mem_cons_self c cs) hds
      have hnext : ∀ y, cs.head? = some y → isDashOrSpace y = false := by
        intro y hy
        have hR := hhead y (Option.mem_def.mpr hy)
        by_contra hcon
        have : isDashOrSpace y = true := by
          cases hyd : isDashOrSpace y
          · exact absurd hyd hcon
          · rfl
        have hydash : y = '-' := hchar y (by
          have : y ∈ cs := List.mem_of_mem_head? hy
          exact List.mem_cons_of_mem _ this) this
        exact hR ⟨hcdash, hydash⟩
      simp only [collapseAux, hds, if_pos]
      rw [if_neg (by simp), collapseAux_true_eq_false hnext, ihcs, hcdash]
    · simp only [collapseAux]
      rw [if_neg hds, ihcs]

/-- Characters of the collapsed string: each is either a replacement hyphen or
an original character that belongs to no `[-\s]` run. -/
theorem mem_collapseAux {c : Char} : ∀ {b : Bool} {s : Str}, c ∈ collapseAux b s →
    c = '-' ∨ (c ∈ s ∧ isDashOrSpace c = false)
  | b, [], h => by simp [collapseAux] at h
  | b, x :: xs, h => by
    by_cases hx : isDashOrSpace x = true
    · simp only [collapseAux, hx, if_pos] at h
      cases b with
      | true =>
        simp only [if_pos] at h
        rcases mem_collapseAux h with h' | ⟨hm, hds⟩
        · exact Or.inl h'
        · exact Or.inr ⟨List.mem_cons_of_mem _ hm, hds⟩
      | false =>
        simp only [Bool.false_eq_true, if_neg, not_false_iff] at h
        rcases List.mem_cons.mp h with h' | h'
        · exact Or.inl h'
        · rcases mem_collapseAux h' with h'' | ⟨hm, hds⟩
          · exact Or.inl h''
          · exact Or.inr ⟨List.mem_cons_of_mem _ hm, hds⟩
    · simp only [collapseAux] at h
      rw [if_neg hx] at h
      rcases List.mem_cons.mp h with h' | h'
      · subst h'
        right
        exact ⟨List.mem_cons_self c xs, by simpa using hx⟩
      · rcases mem_collapseAux h' with h'' | ⟨hm, hds⟩
        · exact Or.inl h''
        · exact Or.inr ⟨List.mem_cons_of_mem _ hm, hds⟩

/-- After a replacement hyphen was emitted the scanner never emits a hyphen
first: the head of `collapseAux true s` is an original non-run character. -/
theorem head_collapseAux_true {s : Str} :
    ∀ y, (collapseAux true s).head? = some y → isDashOrSpace y = false := by
  induction s with
  | nil => intro y h; simp [collapseAux] at h
  | cons c cs ih =>
    intro y h
    by_cases hc : isDashOrSpace c = true
    · simp only [collapseAux, hc, if_pos] at h
      exact ih y h
    · simp only [collapseAux] at h
      rw [if_neg hc] at h
      simp only [List.head?_cons, Option.some.injEq] at h
      subst h
      simpa using hc

/-- The collapsed string never contains two adjacent hyphens. -/
theorem noAdjDash_collapseAux : ∀ (b : Bool) (s : Str), NoAdjDash (collapseAux b s)
  | b, [] => by simp [collapseAux, NoAdjDash]
  | b, c :: cs => by
    by_cases hc : isDashOrSpace c = true
    · cases b with
      | true =>
        simpa [collapseAux, hc, NoAdjDash] using noAdjDash_collapseAux true cs
      | false =>
        simp only [collapseAux, hc, if_pos, Bool.false_eq_true, if_neg, not_false_iff]
        rw [NoAdjDash, List.chain'_cons']
        refine ⟨?_, noAdjDash_collapseAux true cs⟩
        intro y hy
        have := head_collapseAux_true y (Option.mem_def.mp hy)
        intro ⟨_, hy'⟩
        rw [hy'] at this
        simp [isDashOrSpace] at this
    · simp only [collapseAux]
      rw [if_neg hc]
      rw [NoAdjDash, List.chain'_cons']
      refine ⟨?_, noAdjDash_collapseAux false cs⟩
      intro y hy
      intro ⟨hc', _⟩
      rw [hc'] at hc
      simp [isDashOrSpace] at hc

/-- `dropWhile` preserves the no-adjacent-hyphens property. -/
theorem NoAdjDash.dropWhile {p : Char → Bool} {s : Str} (h : NoAdjDash s) :
    NoAdjDash (s.dropWhile p) := by
  induction s with
  | nil => simpa using h
  | cons c cs ih =>
    by_cases hc : p c = true
    · rw [List.dropWhile_cons_of_pos hc]
      exact ih (List.Chain'.tail h)
    · rwa [List.dropWhile_cons_of_neg hc]

/-- `reverse` preserves the (symmetric) no-adjacent-hyphens property. -/
theorem NoAdjDash.reverse {s : Str} (h : NoAdjDash s) : NoAdjDash s.reverse := by
  rw [NoAdjDash, List.chain'_reverse]
  exact h.imp (fun a b hab => fun ⟨x, y⟩ => hab ⟨y, x⟩)

/-- `take` preserves the no-adjacent-hyphens property. -/
theorem NoAdjDash.take {s : Str} (h : NoAdjDash s) (n : Nat) : NoAdjDash (s.take n) := by
  induction s generalizing n with
  | nil => simpa using h
  | cons c cs ih =>
    cases n with
    | zero => simp [NoAdjDash]
    | succ n =>
      rw [List.take_succ_cons, NoAdjDash, List.chain'_cons']
      rw [NoAdjDash, List.chain'_cons'] at h
      refine ⟨?_, ih h.2 n⟩
      intro y hy
      have : cs.head? = some y := by
        cases cs with
        | nil => simp at hy
        | cons d ds =>
          cases n with
          | zero => simp at hy
          | succ m => simp_all
      exact h.1 y (Option.mem_def.mpr this)

/-- `NoAdjDash` survives the whole `strip('-')` step. -/
theorem NoAdjDash.stripDashes {s : Str} (h : NoAdjDash s) : NoAdjDash (stripDashes s) :=
  ((h.dropWhile.reverse).dropWhile).reverse

/-- The head of `dropWhile p s` does not satisfy `p`. -/
theorem head_dropWhile {p : Char → Bool} : ∀ {s : Str} {y : Char},
    (s.dropWhile p).head? = some y → p y = false
  | [], y, h => by simp at h
  | c :: cs, y, h => by
    by_cases hc : p c = true
    · rw [List.dropWhile_cons_of_pos hc] at h
      exact head_dropWhile h
    · rw [List.dropWhile_cons_of_neg hc] at h
      simp only [List.head?_cons, Option.some.injEq] at h
      subst h
      simpa using hc

/-- `dropWhile p` is a suffix: some prefix completes it to the original list. -/
theorem dropWhile_suffix_ex (p : Char → Bool) : ∀ (s : Str), ∃ u, u ++ s.dropWhile p = s
  | [] => ⟨[], rfl⟩
  | c :: cs => by
    by_cases hc : p c = true
    · obtain ⟨u, hu⟩ := dropWhile_suffix_ex p cs
      exact ⟨c :: u, by rw [List.dropWhile_cons_of_pos hc]; simpa using hu⟩
    · exact ⟨[], by rw [List.dropWhile_cons_of_neg hc]; rfl⟩

/-- `stripDashes s` extends (on the right) to `s.dropWhile (· = '-')`. -/
theorem stripDashes_extends (s : Str) :
    ∃ t, stripDashes s ++ t = s.dropWhile (· = '-') := by
  obtain ⟨u, hu⟩ := dropWhile_suffix_ex (· = '-') (s.dropWhile (· = '-')).reverse
  refine ⟨u.reverse, ?_⟩
  rw [stripDashes]
  calc ((s.dropWhile (· = '-')).reverse.dropWhile (· = '-')).reverse ++ u.reverse
      = (u ++ (s.dropWhile (· = '-')).reverse.dropWhile (· = '-')).reverse := by
        rw [List.reverse_append]
    _ = s.dropWhile (· = '-') := by rw [hu, List.reverse_reverse]

/-- Two lists that agree up to a right extension share their head when the
shorter one is non-empty. -/
theorem head?_of_extends {s t u : Str} (h : s ++ t = u) {y : Char}
    (hy : s.head? = some y) : u.head? = some y := by
  subst h
  cases s with
  | nil => simp at hy
  | cons c cs => simpa using hy

/-- The head of the strip result is not a hyphen. -/
theorem head_stripDashes {s : Str} {y : Char} (h : (stripDashes s).head? = some y) :
    y ≠ '-' := by
  obtain ⟨t, ht⟩ := stripDashes_extends s
  have := head_dropWhile (head?_of_extends ht h)
  simpa using this

/-- The last character of the strip result is not a hyphen. -/
theorem getLast_stripDashes {s : Str} {y : Char} (h : (stripDashes s).getLast? = some y) :
    y ≠ '-' := by
  rw [stripDashes, List.getLast?_reverse] at h
  have := head_dropWhile h
  simpa using this

/-- Heads are preserved by `take`. -/
theorem head_take {s : Str} {n : Nat} {y : Char} (h : (s.take n).head? = some y) :
    s.head? = some y := by
  cases s with
  | nil => simp at h
  | cons c cs =>
    cases n with
    | zero => simp at h
    | succ m => simpa using h

/-- Membership in the strip result implies membership in the original. -/
theorem mem_stripDashes {s : Str} {c : Char} (h : c ∈ stripDashes s) : c ∈ s := by
  rw [stripDashes, List.mem_reverse] at h
  have h1 : c ∈ (s.dropWhile (· = '-')).reverse :=
    (List.dropWhile_sublist _).mem h
  rw [List.mem_reverse] at h1
  exact (List.dropWhile_sublist _).mem h1

/-- `dropWhile p s = s` when the head does not satisfy `p`. -/
theorem dropWhile_eq_self {p : Char → Bool} {s : Str}
    (h : ∀ y, s.head? = some y → p y = false) : s.dropWhile p = s := by
  cases s with
  | nil => rfl
  | cons c cs => exact List.dropWhile_cons_of_neg (by simp [h c rfl])

/-- `strip('-')` is the identity on strings with no hyphen at either end. -/
theorem stripDashes_eq_self {s : Str}
    (hh : ∀ y, s.head? = some y → y ≠ '-')
    (hl : ∀ y, s.getLast? = some y → y ≠ '-') : stripDashes s = s := by
  have h1 : s.dropWhile (· = '-') = s :=
    dropWhile_eq_self (fun y hy => by simpa using hh y hy)
  have h2 : s.reverse.dropWhile (· = '-') = s.reverse :=
    dropWhile_eq_self (fun y hy => by
      rw [List.head?_reverse] at hy
      simpa using hl y hy)
  rw [stripDashes, h1, h2, List.reverse_reverse]

/-- Character analysis of a slug: every character is a run-replacement hyphen
or a kept, lowered, non-run character of the title. -/
theorem mem_pySlug {s : Str} {c : Char} (h : c ∈ pySlug s) :
    c = '-' ∨ (c ∈ (pyLowerStr s).filter keepSlugChar ∧ isDashOrSpace c = false) := by
  rw [pySlug] at h
  have h1 := mem_stripDashes ((List.take_sublist _ _).mem h)
  exact mem_collapseAux h1

/-- Slug character set: lowercase letter, digit, underscore or hyphen. -/
theorem pySlug_charset {s : Str} {c : Char} (h : c ∈ pySlug s) :
    pyIsLower c = true ∨ pyIsDigit c = true ∨ c = '_' ∨ c = '-' := by
  rcases mem_pySlug h with h' | ⟨hmem, hds⟩
  · exact Or.inr (Or.inr (Or.inr h'))
  · rw [List.mem_filter] at hmem
    obtain ⟨hlow, hkeep⟩ := hmem
    have hnspace : pyIsSpace c = false := by
      cases hsp : pyIsSpace c
      · rfl
      · exfalso; simp [isDashOrSpace, hsp] at hds
    have hnd : (c = '-') = False := by
      simp only [eq_iff_iff, iff_false]
      intro hcd
      simp [isDashOrSpace, hcd] at hds
    have hword : pyIsWordChar c = true := by
      simp only [keepSlugChar, Bool.or_eq_true, hnspace, decide_eq_true_eq, hnd] at hkeep
      simpa using hkeep
    have hnup : pyIsUpper c = false := by
      rw [pyLowerStr, List.mem_map] at hlow
      obtain ⟨d, _, hd⟩ := hlow
      rw [← hd]
      exact pyIsUpper_pyLower d
    simp only [pyIsWordChar, Bool.or_eq_true, hnup, decide_eq_true_eq] at hword
    rcases hword with ((h' | h') | h') | h'
    · simp at h'
    · exact Or.inl h'
    · exact Or.inr (Or.inl h')
    · exact Or.inr (Or.inr (Or.inl h'))

/-- Every slug character is fixed by lowering. -/
theorem pySlug_lower_fixed {s : Str} {c : Char} (h : c ∈ pySlug s) : pyLower c = c := by
  rcases mem_pySlug h with h' | ⟨hmem, _⟩
  · subst h'; decide
  · rw [List.mem_filter, pyLowerStr, List.mem_map] at hmem
    obtain ⟨⟨d, _, hd⟩, _⟩ := hmem
    rw [← hd]
    exact pyLower_pyLower d

/-- Every slug character is kept by the character filter. -/
theorem pySlug_kept {s : Str} {c : Char} (h : c ∈ pySlug s) : keepSlugChar c = true := by
  rcases mem_pySlug h with h' | ⟨hmem, _⟩
  · subst h'; decide
  · exact (List.mem_filter.mp hmem).2

/-- Slug characters inside a `[-\s]` run are exactly the hyphens. -/
theorem pySlug_run_chars {s : Str} {c : Char} (h : c ∈ pySlug s)
    (hds : isDashOrSpace c = true) : c = '-' := by
  rcases mem_pySlug h with h' | ⟨_, hds'⟩
  · exact h'
  · rw [hds'] at hds; cases hds

/-- A slug never starts with a hyphen. -/
theorem pySlug_head {s : Str} {y : Char} (h : (pySlug s).head? = some y) : y ≠ '-' :=
  head_stripDashes (head_take h)

/-- A slug is at most 60 characters long. -/
theorem pySlug_length (s : Str) : (pySlug s).length ≤ 60 := by
  rw [pySlug, List.length_take]
  exact min_le_left _ _

/-- A slug has no adjacent hyphens. -/
theorem pySlug_noAdjDash (s : Str) : NoAdjDash (pySlug s) :=
  ((noAdjDash_collapseAux false _).stripDashes).take 60

/-- A slug shorter than the 60-character cap never ends with a hyphen (only
the cap cutting inside the string can leave one). -/
theorem pySlug_last {s : Str} (hlen : (pySlug s).length < 60) {y : Char}
    (h : (pySlug s).getLast? = some y) : y ≠ '-' := by
  have hlt : (stripDashes (collapseDashRuns ((pyLowerStr s).filter keepSlugChar))).length < 60 := by
    rw [pySlug, List.length_take] at hlen
    rcases Nat.lt_or_ge (stripDashes (collapseDashRuns ((pyLowerStr s).filter keepSlugChar))).length 60 with h' | h'
    · exact h'
    · rw [min_eq_left h'] at hlen
      omega
  rw [pySlug, List.take_of_length_le (Nat.le_of_lt hlt)] at h
  exact getLast_stripDashes h

/-! ## Claim C4: idempotence of slug generation -/

/-- C4 (counterexample): slug generation is **not** idempotent. On a
61-character title whose 60th character is a hyphen, the `[:60]` cap (applied
*after* `strip('-')`) leaves a trailing hyphen, which a second application
strips: `slugify(slugify(s)) ≠ slugify(s)` for `s = "a"*59 + "-b"`. -/
theorem C4_slugify_not_idempotent :
    pySlug (pySlug (List.replicate 59 'a' ++ ['-', 'b']))
      ≠ pySlug (List.replicate 59 'a' ++ ['-', 'b']) := by decide

/-- C4 (amended): slug generation is idempotent on every string whose slug
does not end in a hyphen — equivalently, whenever the final 60-character
truncation does not cut immediately after a hyphen. -/
theorem C4_slugify_idempotent_of_no_trailing_hyphen (s : Str)
    (h : (pySlug s).getLast? ≠ some '-') : pySlug (pySlug s) = pySlug s := by
  have hmap : pyLowerStr (pySlug s) = pySlug s := by
    have h1 : List.map pyLower (pySlug s) = List.map id (pySlug s) :=
      List.map_congr_left (fun c hc => pySlug_lower_fixed hc)
    rw [pyLowerStr, h1, List.map_id]
  have hfil : (pySlug s).filter keepSlugChar = pySlug s :=
    List.filter_eq_self.mpr (fun c hc => pySlug_kept hc)
  have hcol : collapseDashRuns (pySlug s) = pySlug s :=
    collapseAux_eq_self (fun c hc => pySlug_run_chars hc) (pySlug_noAdjDash s)
  have hstrip : stripDashes (pySlug s) = pySlug s :=
    stripDashes_eq_self (fun y hy => pySlug_head hy)
      (fun y hy hy' => h (by rw [← hy']; exact hy))
  have htake : (pySlug s).take 60 = pySlug s :=
    List.take_of_length_le (pySlug_length s)
  calc pySlug (pySlug s)
      = (stripDashes (collapseDashRuns ((pyLowerStr (pySlug s)).filter keepSlugChar))).take 60 := rfl
    _ = pySlug s := by rw [hmap, hfil, hcol, hstrip, htake]

/-- C4 (witness): the amended idempotence theorem applied at the concrete
title `"Hello World!"`, whose slug `"hello-world"` has no trailing hyphen. -/
theorem C4_slugify_idempotent_witness :
    (pySlug "Hello World!".data).getLast? ≠ some '-' ∧
    pySlug (pySlug "Hello World!".data) = pySlug "Hello World!".data :=
  ⟨by decide, C4_slugify_idempotent_of_no_trailing_hyphen "Hello World!".data (by decide)⟩

/-! ## Claim C1: shape of the slug field -/

/-- C1 (counterexample): the slug is **not** always made of lowercase
alphanumerics and hyphens only, and **not** always free of a trailing hyphen.
Python's `\w` keeps underscores, so input `"a_b"` yields slug `"a_b"`; and
with an AI-supplied 61-character `meta_title` the `[:60]` cap (applied after
`strip('-')`) leaves a trailing hyphen. -/
theorem C1_slug_shape_counterexample :
    ('_' ∈ (generate_seo_metadata false none "a_b".data none none none []).slug ∧
      pyIsLower '_' = false ∧ pyIsDigit '_' = false ∧ '_' ≠ '-') ∧
    (generate_seo_metadata true (some aiTitle61) [] none none none []).slug.getLast?
      = some '-' := by decide

/-- C1 (amended): for every input text and every base metadata, the slug is a
string of length ≤ 60 over lowercase letters, digits, underscores and hyphens
with no leading hyphen; a trailing hyphen can occur only when the slug was
truncated at exactly 60 characters; and the slug is computed deterministically
(by the pure function `pySlug`) from the resolved `meta_title`. -/
theorem C1_slug_shape (use_ai : Bool) (ai_result : Option BaseMetadata) (text : Str)
    (title author category : Option Str) (today : Str) :
    (generate_seo_metadata use_ai ai_result text title author category today).slug.length ≤ 60 ∧
    (∀ c ∈ (generate_seo_metadata use_ai ai_result text title author category today).slug,
      pyIsLower c = true ∨ pyIsDigit c = true ∨ c = '_' ∨ c = '-') ∧
    (∀ y, (generate_seo_metadata use_ai ai_result text title author category today).slug.head?
      = some y → y ≠ '-') ∧
    ((generate_seo_metadata use_ai ai_result text title author category today).slug.length < 60 →
      ∀ y, (generate_seo_metadata use_ai ai_result text title author category today).slug.getLast?
        = some y → y ≠ '-') ∧
    (generate_seo_metadata use_ai ai_result text title author category today).slug =
      pySlug ((applyOverrides
        (if use_ai then ai_result.getD (rule_based_analysis text title)
          else rule_based_analysis text title)
        title author category).meta_title.getD "untitled".data) := by
  have hslug : (generate_seo_metadata use_ai ai_result text title author category today).slug
      = pySlug ((applyOverrides
        (if use_ai then ai_result.getD (rule_based_analysis text title)
          else rule_based_analysis text title)
        title author category).meta_title.getD "untitled".data) := by
    cases ai_result <;> rfl
  refine ⟨?_, ?_, ?_, ?_, hslug⟩
  · rw [hslug]; exact pySlug_length _
  · rw [hslug]; intro c hc; exact pySlug_charset hc
  · rw [hslug]; intro y hy; exact pySlug_head hy
  · rw [hslug]; intro hlen y hy; exact pySlug_last hlen hy

/-- C1 (witness): the amended slug-shape theorem applied at the concrete input
`"A B"` (slug `"a-b"`), discharging the truncation-length hypothesis of the
trailing-hyphen clause. -/
theorem C1_slug_shape_witness :
    ((generate_seo_metadata false none "A B".data none none none []).slug.length < 60 ∧
     (generate_seo_metadata false none "A B".data none none none []).slug.getLast? = some 'b') ∧
    'b' ≠ '-' :=
  ⟨⟨by decide, by decide⟩,
    (C1_slug_shape false none "A B".data none none none []).2.2.2.1 (by decide) 'b' (by decide)⟩

/-! ## Claim C2: total fallback when the AI collaborator fails -/

/-- C2 (confirmed): if every call to the AI collaborator raises (the `except`
clause of `ai_analyze_content` then returns `None`, modelled by
`ai_result = none`), `generate_seo_metadata` returns exactly the complete
record computed by the rule-based heuristic path — the same record as with
AI disabled. The embedding is a total Lean function, mirroring that no
exception propagates to the caller. -/
theorem C2_ai_failure_uses_heuristic (text : Str) (title author category : Option Str)
    (today : Str) :
    generate_seo_metadata true none text title author category today
      = generate_seo_metadata false none text title author category today := rfl

/-! ## Claim C3: word count and reading time -/

/-- C3 (confirmed): `word_count` is the number of whitespace-separated tokens
of the raw input (`len(blog_text.split())`), and `reading_time` is
`f"{max(1, round(word_count / 200))} min read"`, with Python's
round-half-to-even `round`. -/
theorem C3_word_count_reading_time (use_ai : Bool) (ai_result : Option BaseMetadata)
    (text : Str) (title author category : Option Str) (today : Str) :
    (generate_seo_metadata use_ai ai_result text title author category today).word_count
      = (wsTokens text).length ∧
    (generate_seo_metadata use_ai ai_result text title author category today).reading_time
      = natToChars (max 1 (pyRoundDiv (wsTokens text).length 200)) ++ " min read".data :=
  ⟨rfl, rfl⟩

/-! ## Claim C10: og_description truncation -/

/-- C10 (confirmed): `og_description` is the first 200 characters of the
resolved `meta_description` (the same base value the `meta_description` field
is read from), hence always of length ≤ 200 — even when the base description
is longer. -/
theorem C10_og_description (use_ai : Bool) (ai_result : Option BaseMetadata)
    (text : Str) (title author category : Option Str) (today : Str) :
    (generate_seo_metadata use_ai ai_result text title author category today).og_description
      = (generate_seo_metadata use_ai ai_result text title author category today).meta_description.take 200 ∧
    (generate_seo_metadata use_ai ai_result text title author category today).og_description.length ≤ 200 := by
  refine ⟨rfl, ?_⟩
  have : (generate_seo_metadata use_ai ai_result text title author category today).og_description
      = (generate_seo_metadata use_ai ai_result text title author category today).meta_description.take 200 := rfl
  rw [this, List.length_take]
  exact min_le_left _ _

/-! ## Claim C5: the "Hello World" scenario -/

/-- C5 (counterexample): on the scenario text, `word_count` is 16, not 15 —
`len(blog_text.split())` counts the tokens of the heading line (`"#"`,
`"Hello"`, `"World"`) together with the 13 tokens of the sentence. -/
theorem C5_scenario_counterexample :
    (generate_seo_metadata false none demoText none none none []).word_count = 16 ∧
    (16 : Nat) ≠ 15 := by decide

/-- C5 (amended): on the scenario text with no title override, `word_count`
is 16 (all whitespace-separated tokens of the raw text, heading included),
the rule-based topics are `["Hello World"]`, and the slug is
`"hello-world"`. -/
theorem C5_scenario :
    (generate_seo_metadata false none demoText none none none []).word_count = 16 ∧
    (rule_based_analysis demoText none).topics = some ["Hello World".data] ∧
    (generate_seo_metadata false none demoText none none none []).slug = "hello-world".data := by
  decide

/-! ## Claim C9: the empty-string input -/

/-- C9 (confirmed): `rule_based_analysis` on the empty string returns
`focus_keyword = "content"`, `keywords = []` and `meta_description = ""`;
the embedding is a total function, mirroring that no exception is raised. -/
theorem C9_rule_based_empty :
    (rule_based_analysis [] none).focus_keyword = some "content".data ∧
    (rule_based_analysis [] none).keywords = some [] ∧
    (rule_based_analysis [] none).meta_description = some [] := by decide

/-! ## Claim C8: size bounds of the rule-based record -/

/-- C8 (confirmed): for every non-empty text the rule-based record has at most
10 keywords, its tags are the capitalized first 8 keywords (hence at most 8),
and its meta description has at most 155 characters. -/
theorem C8_rule_based_bounds (text : Str) (title : Option Str) (_nonempty : text ≠ []) :
    ((rule_based_analysis text title).keywords.getD []).length ≤ 10 ∧
    (rule_based_analysis text title).tags =
      some ((((rule_based_analysis text title).keywords.getD []).take 8).map pyCapitalize) ∧
    ((rule_based_analysis text title).tags.getD []).length ≤ 8 ∧
    ((rule_based_analysis text title).meta_description.getD []).length ≤ 155 := by
  simp only [rule_based_analysis, Option.getD_some]
  refine ⟨?_, ?_, ?_, ?_⟩
  · rw [List.length_take]
    exact min_le_left _ _
  · rw [List.take_take]
    norm_num
  · rw [List.length_map, List.length_take]
    exact le_trans (min_le_left _ _) (by norm_num)
  · by_cases hm : (joinDotSpace ((((splitSentences (blankHeadingLines text)).map pyStrip).filter
        (fun s => 20 < s.length)).take 2)).take 155 = ([] : Str)
    · rw [if_pos hm, List.length_take]
      exact min_le_left _ _
    · rw [if_neg hm, List.length_take]
      exact min_le_left _ _

/-- C8 (witness): the bounds theorem applied at the concrete non-empty input
`"x"`. -/
theorem C8_rule_based_bounds_witness :
    "x".data ≠ [] ∧
    (((rule_based_analysis "x".data none).keywords.getD []).length ≤ 10 ∧
     (rule_based_analysis "x".data none).tags =
       some ((((rule_based_analysis "x".data none).keywords.getD []).take 8).map pyCapitalize) ∧
     ((rule_based_analysis "x".data none).tags.getD []).length ≤ 8 ∧
     ((rule_based_analysis "x".data none).meta_description.getD []).length ≤ 155) :=
  ⟨by decide, C8_rule_based_bounds "x".data none (by decide)⟩

/-! ## Claim C6: title resolution -/

/-- The first field of the newline split is the longest newline-free prefix. -/
theorem splitOnNlAux_head : ∀ (s cur : Str), ∃ rest,
    splitOnNlAux cur s = (cur.reverse ++ s.takeWhile (· ≠ '\n')) :: rest
  | [], cur => ⟨[], by simp [splitOnNlAux]⟩
  | c :: cs, cur => by
    by_cases hc : c = '\n'
    · subst hc
      exact ⟨splitOnNlAux [] cs, by simp [splitOnNlAux]⟩
    · obtain ⟨rest, hr⟩ := splitOnNlAux_head cs (c :: cur)
      refine ⟨rest, ?_⟩
      rw [splitOnNlAux, if_neg hc, hr]
      simp [hc]

/-- C6 (counterexample): the resolved title does **not** default to
`"Untitled"` on empty input — `"".strip().split('\n')` is `['']`, a non-empty
list, so the `"Untitled"` branch is unreachable and the title is `""`. Nor is
it always the first line of the raw text: the text is stripped first, so
`"\nHi"` resolves to `"Hi"`, not to its (empty) first line. -/
theorem C6_title_resolution_counterexample :
    ((rule_based_analysis [] none).meta_title = some [] ∧ ([] : Str) ≠ "Untitled".data) ∧
    ((rule_based_analysis ('\n' :: 'H' :: 'i' :: []) none).meta_title = some ('H' :: 'i' :: []) ∧
      ('H' :: 'i' :: []) ≠ ([] : Str)) := by decide

/-- C6 (amended): when no explicit title is given, the resolved title (whose
60-character cap is the record's `meta_title`) is the first line of the
whitespace-stripped text, with a leading `#` run and the whitespace after it
removed, stripped again; for empty input it is the empty string. -/
theorem C6_title_resolution (text : Str) :
    (rule_based_analysis text none).meta_title = some ((firstLineTitle text).take 60) ∧
    (rule_based_analysis [] none).meta_title = some [] := by
  constructor
  · obtain ⟨rest, hr⟩ := splitOnNlAux_head (pyStrip text) []
    have hr' : splitOnNl (pyStrip text) = ((pyStrip text).takeWhile (· ≠ '\n')) :: rest := by
      rw [splitOnNl, hr]
      simp
    simp [rule_based_analysis, hr', strTruthy, firstLineTitle]
  · decide

/-! ## Claim C7: candidate words of the keyword regex -/

/-- Scanning a run of lowercase letters just accumulates it. -/
theorem findWordsAux_append_run : ∀ (run : Str) {post : Str} {bok : Bool} {cur : Str},
    (∀ c ∈ run, pyIsLower c = true) →
    findWordsAux bok cur (run ++ post) = findWordsAux bok (run.reverse ++ cur) post
  | [], _, _, _, _ => by simp
  | c :: rs, post, bok, cur, h => by
    have hc : pyIsLower c = true := h c (List.mem_cons_self c rs)
    rw [List.cons_append, findWordsAux, if_pos hc,
      findWordsAux_append_run rs (fun x hx => h x (List.mem_cons_of_mem _ hx))]
    simp [List.append_assoc]

/-- At the end of an accumulated run of length ≥ 3 with a valid left boundary,
a non-word (or absent) next character makes the scanner emit the run. -/
theorem findWordsAux_emit (run : Str) (post : Str) (hlen : 3 ≤ run.length)
    (hpost : ∀ c, post.head? = some c → pyIsWordChar c = false) :
    run ∈ findWordsAux true run.reverse post := by
  cases post with
  | nil =>
    simp [findWordsAux, hlen]
  | cons c cs =>
    have hcw : pyIsWordChar c = false := hpost c rfl
    have hcl : pyIsLower c = false := by
      cases hl : pyIsLower c
      · rfl
      · exfalso
        rw [pyIsWordChar, hl] at hcw
        simp at hcw
    rw [findWordsAux, if_neg (by simp [hcl])]
    rw [if_pos (by simp [hcw, hlen])]
    simp

/-- Consuming a block that ends in a non-word character leaves the scanner in
the initial state (valid boundary, empty run), with some words already
emitted. -/
theorem findWordsAux_prefix : ∀ (pre : Str), pre ≠ [] →
    (∀ c, pre.getLast? = some c → pyIsWordChar c = false) →
    ∀ (bok : Bool) (cur rest : Str), ∃ W,
      findWordsAux bok cur (pre ++ rest) = W ++ findWordsAux true [] rest
  | [], hne, _, _, _, _ => absurd rfl hne
  | [p], _, hlast, bok, cur, rest => by
    have hpw : pyIsWordChar p = false := hlast p rfl
    have hpl : pyIsLower p = false := by
      cases hl : pyIsLower p
      · rfl
      · exfalso
        rw [pyIsWordChar, hl] at hpw
        simp at hpw
    rw [List.cons_append, List.nil_append, findWordsAux, if_neg (by simp [hpl]), hpw]
    by_cases hcond : (bok && decide (3 ≤ cur.length) && !false) = true
    · exact ⟨[cur.reverse], by rw [if_pos hcond]; rfl⟩
    · exact ⟨[], by rw [if_neg hcond]; rfl⟩
  | p :: q :: ps, _, hlast, bok, cur, rest => by
    have hlast' : ∀ c, (q :: ps).getLast? = some c → pyIsWordChar c = false := by
      intro c hc
      exact hlast c (by simpa using hc)
    by_cases hpl : pyIsLower p = true
    · obtain ⟨W, hW⟩ := findWordsAux_prefix (q :: ps) (by simp) hlast' bok (p :: cur) rest
      exact ⟨W, by rw [List.cons_append, findWordsAux, if_pos hpl, hW]⟩
    · obtain ⟨W, hW⟩ := findWordsAux_prefix (q :: ps) (by simp) hlast' (!pyIsWordChar p) [] rest
      rw [List.cons_append, findWordsAux, if_neg hpl]
      by_cases hcond : (bok && decide (3 ≤ cur.length) && !pyIsWordChar p) = true
      · exact ⟨cur.reverse :: W, by rw [if_pos hcond, hW]; rfl⟩
      · exact ⟨W, by rw [if_neg hcond, hW]⟩

/-- C7 (counterexample): the candidate words are **not** all maximal runs of
3+ lowercase letters. In `"abc1"` the maximal run `"abc"` (flanked only by
the digit `1`) is not extracted, because `\b` fails between `c` and the word
character `1`. -/
theorem C7_candidate_words_counterexample :
    "abc1".data = ([] : Str) ++ "abc".data ++ ['1'] ∧
    (∀ c ∈ "abc".data, pyIsLower c = true) ∧ 3 ≤ "abc".data.length ∧
    pyIsLower '1' = false ∧
    "abc".data ∉ findWords "abc1".data := by decide

/-- C7 (amended): every maximal run of 3+ lowercase letters whose neighbours
(when present) are non-word characters — so that both `\b` boundaries hold —
appears among the candidate words returned by the keyword regex. -/
theorem C7_candidate_words (pre run post : Str)
    (hrun : ∀ c ∈ run, pyIsLower c = true) (hlen : 3 ≤ run.length)
    (hpre : ∀ c, pre.getLast? = some c → pyIsWordChar c = false)
    (hpost : ∀ c, post.head? = some c → pyIsWordChar c = false) :
    run ∈ findWords (pre ++ run ++ post) := by
  cases pre with
  | nil =>
    rw [findWords, List.nil_append, findWordsAux_append_run run hrun]
    simpa using findWordsAux_emit run post hlen hpost
  | cons p ps =>
    obtain ⟨W, hW⟩ := findWordsAux_prefix (p :: ps) (by simp) hpre true [] (run ++ post)
    rw [findWords, List.append_assoc, hW]
    apply List.mem_append_right
    rw [findWordsAux_append_run run hrun]
    simpa using findWordsAux_emit run post hlen hpost

/-- C7 (witness): the amended theorem at the concrete decomposition
`"abc" = [] ++ "abc" ++ []`. -/
theorem C7_candidate_words_witness :
    (∀ c ∈ "abc".data, pyIsLower c = true) ∧ 3 ≤ "abc".data.length ∧
    "abc".data ∈ findWords (([] : Str) ++ "abc".data ++ []) :=
  ⟨by decide, by decide,
    C7_candidate_words [] "abc".data [] (by decide) (by decide)
      (by intro c hc; simp at hc) (by intro c hc; simp at hc)⟩
